import Mathlib

/-!
Verification of the p2p-chat-platform signaling hub and TURN credential plane.

The definitions below are a shallow embedding of the server code:
* `SignalMsg`, `ServerMsg`, `UserInfo` mirror `SignalMessage`, `ServerMessage`
  and `UserInfo` of `src/web-server/src/lib.rs`;
* `hubStep` mirrors the per-message processing of `handle_socket`
  (`src/web-server/src/lib.rs`, lines 366-566): the `SignalingState.users`
  HashMap becomes the association list `Hub.registry`, each WebSocket session
  becomes an entry of `Hub.sessions` keyed by its freshly generated `user_id`,
  and each session's `tokio::sync::broadcast` channel becomes the bounded
  queue `Session.outbox`. The channel is requested with capacity 100 but
  tokio rounds that up to the next power of two, 128; the channel is a ring
  buffer whose send always succeeds, overwriting the oldest queued value when
  128 are pending (`enqueue` models the ring content). An overwritten value
  overruns the receiver: the session's send task (`while let Ok(msg) =
  rx.recv().await`, line 375) then exits on `RecvError::Lagged` without
  forwarding any pending envelope, which ends the connection and aborts the
  receive task, skipping the disconnect cleanup; `Chan`, `sendChan` and
  `sendTaskDelivers` model that receiver-side behaviour;
* `SimpleAuthHandler`, `addCredential`, `authHandle`, `buildAuthHandler`
  mirror the credential store of `src/turn-server/src/lib.rs`;
* `getConnectionDetails` and `getTurnConfig` mirror
  `TurnServerManager::get_connection_details` and the `/api/turn-config`
  handler `get_turn_config`.
-/

set_option maxRecDepth 100000

namespace P2PChat

/-- `UserInfo` of `src/web-server/src/lib.rs` (user_id, display_name). -/
structure UserInfo where
  user_id : String
  display_name : String
deriving DecidableEq, Repr

/-- Client-to-server envelopes: `SignalMessage` of `src/web-server/src/lib.rs`.
The `serde_json::Value` payloads are opaque to the server and modelled as
strings. -/
inductive SignalMsg where
  | register (display_name : String)
  | discover
  | offer (target_user_id : String) (payload : String)
  | answer (target_user_id : String) (payload : String)
  | ice_candidate (target_user_id : String) (payload : String)
deriving DecidableEq, Repr

/-- Server-to-client envelopes: `ServerMessage` of `src/web-server/src/lib.rs`. -/
inductive ServerMsg where
  | registered (user_id : String)
  | user_list (users : List UserInfo)
  | user_joined (user_id : String) (display_name : String)
  | user_left (user_id : String)
  | offer (from_user_id : String) (payload : String)
  | answer (from_user_id : String) (payload : String)
  | ice_candidate (from_user_id : String) (payload : String)
  | error (message : String)
deriving DecidableEq, Repr

/-- First-match lookup in an association list, modelling `HashMap::get`. -/
def lookupS {α : Type} (k : String) : List (String × α) → Option α
  | [] => none
  | p :: rest => if p.1 = k then some p.2 else lookupS k rest

/-- Remove every entry with the given key, modelling `HashMap::remove`. -/
def eraseKey {α : Type} (k : String) (l : List (String × α)) : List (String × α) :=
  l.filter (fun p => p.1 != k)

/-- Key-replacing insert, modelling `HashMap::insert`. -/
def insertPair {α : Type} (k : String) (v : α) (l : List (String × α)) :
    List (String × α) :=
  eraseKey k l ++ [(k, v)]

/-- The keys of an association list. -/
def keysOf {α : Type} (l : List (String × α)) : List String := l.map Prod.fst

/-- Effective capacity of each session's broadcast channel:
`broadcast::channel(100)` in `handle_socket` requests 100, and tokio rounds
the capacity up to the next power of two, 128. -/
def outboxCap : Nat := 128

/-- The ring content after `tx.send`: a send to a bounded tokio broadcast
ring always succeeds; below capacity it appends, at capacity it overwrites
the oldest queued message. (The overrun this inflicts on the channel's
receiver is modelled separately by `Chan` and `sendChan`.) -/
def enqueue (q : List ServerMsg) (m : ServerMsg) : List ServerMsg :=
  if q.length < outboxCap then q ++ [m] else q.drop 1 ++ [m]

/-- One WebSocket session of `handle_socket`: the local `user_registered`
flag of its receive task and the contents of its broadcast channel. -/
structure Session where
  regFlag : Bool
  outbox : List ServerMsg
deriving DecidableEq, Repr

/-- The signaling state: `SignalingState.users` (user_id to display_name;
the stored `broadcast::Sender` clone is modelled by addressing the session
with the same user_id) together with all live sessions. -/
structure Hub where
  registry : List (String × String)
  sessions : List (String × Session)
deriving DecidableEq, Repr

/-- Apply a key-aware update to every session; sends only modify outboxes. -/
def mapSessions (f : String → Session → Session) (ss : List (String × Session)) :
    List (String × Session) :=
  ss.map (fun p => (p.1, f p.1 p.2))

/-- `tx.send(msg)` on the channel of the session keyed `target`. -/
def sendTo (target : String) (m : ServerMsg) :
    List (String × Session) → List (String × Session) :=
  mapSessions (fun id sess =>
    if id = target then { sess with outbox := enqueue sess.outbox m } else sess)

/-- The fan-out loops of `handle_socket`: send `m` to every registry entry
except the acting session (`if id != &user_id`); HashMap keys are unique, so
each peer is enqueued at most once. -/
def broadcastExcept (selfId : String) (m : ServerMsg) (ids : List String) :
    List (String × Session) → List (String × Session) :=
  mapSessions (fun id sess =>
    if id ≠ selfId ∧ id ∈ ids then { sess with outbox := enqueue sess.outbox m }
    else sess)

/-- Set the `user_registered` flag of one session. -/
def setFlag (sid : String) (b : Bool) :
    List (String × Session) → List (String × Session) :=
  mapSessions (fun id sess => if id = sid then { sess with regFlag := b } else sess)

/-- The user-list snapshot built from the registry
(`signaling.users.iter().map(...)`). -/
def snapshotOf (registry : List (String × String)) : List UserInfo :=
  registry.map (fun p => ⟨p.1, p.2⟩)

/-- Events driving one hub: a connection upgrade (`attach`, which creates the
session and its channel with a fresh UUID), a parsed text frame processed by
the session's receive task (`recv`), and transport termination (`detach`,
running the disconnect block of `handle_socket`). -/
inductive Op where
  | attach (sid : String)
  | recv (sid : String) (m : SignalMsg)
  | detach (sid : String)
deriving DecidableEq, Repr

/-- Processing of one parsed `SignalMessage` by `handle_socket`'s receive
task, given the acting session's current state. -/
def processMsg (h : Hub) (sid : String) (sess : Session) : SignalMsg → Hub
  | .register name =>
    let registry2 := insertPair sid name h.registry
    let snap := snapshotOf registry2
    { registry := registry2,
      sessions := setFlag sid true
        (broadcastExcept sid (.user_joined sid name) (keysOf registry2)
          (sendTo sid (.user_list snap)
            (sendTo sid (.registered sid) h.sessions))) }
  | .discover =>
    if sess.regFlag then
      { h with sessions := sendTo sid (.user_list (snapshotOf h.registry)) h.sessions }
    else
      { h with sessions := sendTo sid (.error "Not registered") h.sessions }
  | .offer target payload =>
    if sess.regFlag then
      match lookupS target h.registry with
      | some _ => { h with sessions := sendTo target (.offer sid payload) h.sessions }
      | none => { h with sessions := sendTo sid (.error "Target user not found") h.sessions }
    else
      { h with sessions := sendTo sid (.error "Not registered") h.sessions }
  | .answer target payload =>
    if sess.regFlag then
      match lookupS target h.registry with
      | some _ => { h with sessions := sendTo target (.answer sid payload) h.sessions }
      | none => { h with sessions := sendTo sid (.error "Target user not found") h.sessions }
    else
      { h with sessions := sendTo sid (.error "Not registered") h.sessions }
  | .ice_candidate target payload =>
    if sess.regFlag then
      match lookupS target h.registry with
      | some _ => { h with sessions := sendTo target (.ice_candidate sid payload) h.sessions }
      | none => { h with sessions := sendTo sid (.error "Target user not found") h.sessions }
    else
      { h with sessions := sendTo sid (.error "Not registered") h.sessions }

/-- One step of the hub. `attach` is guarded on freshness (UUIDs are never
reused); `recv` acts only for live sessions; `detach` runs the disconnect
block: remove the session from the registry, notify the remaining registry
members with `user_left`, and discard the session. -/
def hubStep (h : Hub) : Op → Hub
  | .attach sid =>
    if (lookupS sid h.sessions).isSome then h
    else { h with sessions := h.sessions ++ [(sid, ⟨false, []⟩)] }
  | .recv sid msg =>
    match lookupS sid h.sessions with
    | none => h
    | some sess => processMsg h sid sess msg
  | .detach sid =>
    if (lookupS sid h.sessions).isSome then
      { registry := eraseKey sid h.registry,
        sessions := eraseKey sid
          (broadcastExcept sid (.user_left sid) (keysOf (eraseKey sid h.registry))
            h.sessions) }
    else h

/-- The hub that has seen no connection yet. -/
def initHub : Hub := ⟨[], []⟩

/-- Run a sequence of events from the initial hub. -/
def runHub (ops : List Op) : Hub := ops.foldl hubStep initHub

/-! ### Basic lemmas about the association-list and outbox primitives -/

theorem lookupS_nil {α : Type} (k : String) : lookupS k ([] : List (String × α)) = none := rfl

theorem lookupS_cons {α : Type} (k : String) (p : String × α) (rest : List (String × α)) :
    lookupS k (p :: rest) = if p.1 = k then some p.2 else lookupS k rest := rfl

theorem lookupS_append {α : Type} (k : String) (l1 l2 : List (String × α)) :
    lookupS k (l1 ++ l2) =
      match lookupS k l1 with
      | some v => some v
      | none => lookupS k l2 := by
  induction l1 with
  | nil => simp [lookupS]
  | cons p rest ih =>
    by_cases hk : p.1 = k
    · simp [lookupS, hk]
    · simp [lookupS, hk, ih]

theorem eraseKey_cons {α : Type} (j : String) (p : String × α) (rest : List (String × α)) :
    eraseKey j (p :: rest) =
      if p.1 = j then eraseKey j rest else p :: eraseKey j rest := by
  by_cases h : p.1 = j <;> simp [eraseKey, List.filter_cons, h]

theorem lookupS_eraseKey {α : Type} (k j : String) (l : List (String × α)) :
    lookupS k (eraseKey j l) = if k = j then none else lookupS k l := by
  induction l with
  | nil => simp [eraseKey, lookupS]
  | cons p rest ih =>
    rw [eraseKey_cons]
    by_cases hj : p.1 = j
    · rw [if_pos hj, ih]
      by_cases hk : k = j
      · simp [hk]
      · have hpk : p.1 ≠ k := fun hcon => hk (by rw [← hcon, hj])
        simp [hk, lookupS_cons, hpk]
    · rw [if_neg hj, lookupS_cons]
      by_cases hpk : p.1 = k
      · have hk : k ≠ j := fun hcon => hj (by rw [hpk, hcon])
        simp [hpk, hk, lookupS_cons]
      · simp [hpk, ih, lookupS_cons]

theorem lookupS_insertPair {α : Type} (k j : String) (v : α) (l : List (String × α)) :
    lookupS k (insertPair j v l) = if k = j then some v else lookupS k l := by
  rw [insertPair, lookupS_append, lookupS_eraseKey]
  by_cases hk : k = j
  · simp [hk, lookupS]
  · cases lookupS k l <;> simp [hk, lookupS, Ne.symm hk]

theorem mem_keysOf_iff {α : Type} (k : String) (l : List (String × α)) :
    k ∈ keysOf l ↔ (lookupS k l).isSome := by
  induction l with
  | nil => simp [keysOf, lookupS]
  | cons p rest ih =>
    by_cases hk : p.1 = k
    · simp [keysOf, lookupS, hk]
    · simp [keysOf, lookupS, hk, Ne.symm hk] at ih ⊢
      exact ih

theorem mem_of_lookupS {α : Type} {k : String} {v : α} {l : List (String × α)}
    (h : lookupS k l = some v) : (k, v) ∈ l := by
  induction l with
  | nil => simp [lookupS] at h
  | cons p rest ih =>
    cases p with
    | mk a b =>
      by_cases hk : a = k
      · simp [lookupS, hk] at h
        subst hk
        subst h
        exact List.mem_cons_self _ _
      · rw [lookupS_cons, if_neg hk] at h
        exact List.mem_cons_of_mem _ (ih h)

theorem mem_enqueue {q : List ServerMsg} {m m' : ServerMsg}
    (h : m' ∈ enqueue q m) : m' ∈ q ∨ m' = m := by
  unfold enqueue at h
  split at h
  · rcases List.mem_append.mp h with h1 | h1
    · exact Or.inl h1
    · exact Or.inr (List.mem_singleton.mp h1)
  · rcases List.mem_append.mp h with h1 | h1
    · exact Or.inl (List.drop_subset 1 q h1)
    · exact Or.inr (List.mem_singleton.mp h1)

theorem enqueue_suffix (q : List ServerMsg) (m : ServerMsg) :
    List.IsSuffix [m] (enqueue q m) := by
  unfold enqueue
  split <;> exact List.suffix_append _ _

theorem enqueue_length_pos (q : List ServerMsg) (m : ServerMsg) :
    1 ≤ (enqueue q m).length := by
  unfold enqueue
  split <;> simp

theorem enqueue_suffix_two (q : List ServerMsg) (a b : ServerMsg) :
    List.IsSuffix [a, b] (enqueue (enqueue q a) b) := by
  have hshape : ∃ q1, enqueue q a = q1 ++ [a] := by
    unfold enqueue
    split
    · exact ⟨q, rfl⟩
    · exact ⟨q.drop 1, rfl⟩
  obtain ⟨q1, hq1⟩ := hshape
  rw [hq1]
  unfold enqueue
  split
  · rw [List.append_assoc]
    exact List.suffix_append _ _
  · rename_i hlen
    have hq1len : 1 ≤ q1.length := by
      simp [outboxCap] at hlen
      omega
    rw [List.drop_append_of_le_length hq1len, List.append_assoc]
    exact List.suffix_append _ _

/-! ### Lookup lemmas for the session-map mutators -/

theorem lookupS_mapSessions (f : String → Session → Session)
    (ss : List (String × Session)) (k : String) :
    lookupS k (mapSessions f ss) = (lookupS k ss).map (f k) := by
  induction ss with
  | nil => simp [mapSessions, lookupS]
  | cons p rest ih =>
    by_cases hk : p.1 = k
    · subst hk
      simp [mapSessions, lookupS]
    · simp [mapSessions, lookupS, hk] at ih ⊢
      exact ih

theorem keysOf_mapSessions (f : String → Session → Session)
    (ss : List (String × Session)) :
    keysOf (mapSessions f ss) = keysOf ss := by
  induction ss with
  | nil => rfl
  | cons p rest ih => simp [mapSessions, keysOf]

theorem lookupS_sendTo_self (t : String) (m : ServerMsg) (ss : List (String × Session)) :
    lookupS t (sendTo t m ss) =
      (lookupS t ss).map (fun s => { s with outbox := enqueue s.outbox m }) := by
  rw [sendTo, lookupS_mapSessions]
  cases lookupS t ss <;> simp

theorem lookupS_sendTo_ne {id t : String} (m : ServerMsg) (ss : List (String × Session))
    (hne : id ≠ t) : lookupS id (sendTo t m ss) = lookupS id ss := by
  rw [sendTo, lookupS_mapSessions]
  cases lookupS id ss <;> simp [hne]

theorem lookupS_broadcastExcept (selfId id : String) (m : ServerMsg) (ids : List String)
    (ss : List (String × Session)) :
    lookupS id (broadcastExcept selfId m ids ss) =
      (lookupS id ss).map (fun s =>
        if id ≠ selfId ∧ id ∈ ids then { s with outbox := enqueue s.outbox m } else s) := by
  rw [broadcastExcept]
  exact lookupS_mapSessions _ ss id

theorem lookupS_setFlag_self (sid : String) (b : Bool) (ss : List (String × Session)) :
    lookupS sid (setFlag sid b ss) =
      (lookupS sid ss).map (fun s => { s with regFlag := b }) := by
  rw [setFlag, lookupS_mapSessions]
  cases lookupS sid ss <;> simp

theorem lookupS_setFlag_ne {id sid : String} (b : Bool) (ss : List (String × Session))
    (hne : id ≠ sid) : lookupS id (setFlag sid b ss) = lookupS id ss := by
  rw [setFlag, lookupS_mapSessions]
  cases lookupS id ss <;> simp [hne]

/-! ### Reduction lemmas for `hubStep` -/

theorem hubStep_recv_some {h : Hub} {sid : String} {sess : Session} (msg : SignalMsg)
    (hs : lookupS sid h.sessions = some sess) :
    hubStep h (.recv sid msg) = processMsg h sid sess msg := by
  simp [hubStep, hs]

theorem hubStep_recv_none {h : Hub} {sid : String} (msg : SignalMsg)
    (hs : lookupS sid h.sessions = none) :
    hubStep h (.recv sid msg) = h := by
  simp [hubStep, hs]

theorem hubStep_detach_some {h : Hub} {sid : String} {sess : Session}
    (hs : lookupS sid h.sessions = some sess) :
    hubStep h (.detach sid) =
      { registry := eraseKey sid h.registry,
        sessions := eraseKey sid
          (broadcastExcept sid (.user_left sid) (keysOf (eraseKey sid h.registry))
            h.sessions) } := by
  simp [hubStep, hs]

theorem hubStep_attach_none {h : Hub} {sid : String}
    (hs : lookupS sid h.sessions = none) :
    hubStep h (.attach sid) = { h with sessions := h.sessions ++ [(sid, ⟨false, []⟩)] } := by
  simp [hubStep, hs]

/-- The fully reduced shape of processing a `register`. -/
theorem register_core {h : Hub} {sid : String} {sess : Session} (name : String)
    (hs : lookupS sid h.sessions = some sess) :
    hubStep h (.recv sid (.register name)) =
      { registry := insertPair sid name h.registry,
        sessions := setFlag sid true
          (broadcastExcept sid (.user_joined sid name)
            (keysOf (insertPair sid name h.registry))
            (sendTo sid (.user_list (snapshotOf (insertPair sid name h.registry)))
              (sendTo sid (.registered sid) h.sessions))) } := by
  rw [hubStep_recv_some _ hs]
  rfl

/-! ### TURN credential store (src/turn-server/src/lib.rs) -/

/-- `SimpleAuthHandler`: the credential table as (username, realm, key). -/
structure SimpleAuthHandler where
  credentials : List (String × String × List Nat)
deriving DecidableEq, Repr

/-- Modelled from the spec: the `generate_auth_key` of the external
`webrtc_turn` crate, which is not part of this repository, computes the MD5
digest of `username:realm:password` (RFC 5389 long-term credentials). The MD5
digest itself is abstracted as the parameter `md5`; the concatenation is what
the repository contributes. -/
def generateAuthKey (md5 : String → List Nat) (username realm password : String) :
    List Nat :=
  md5 (username ++ ":" ++ realm ++ ":" ++ password)

/-- `SimpleAuthHandler::add_credential`: push the pre-computed key. -/
def addCredential (md5 : String → List Nat) (h : SimpleAuthHandler)
    (username realm password : String) : SimpleAuthHandler :=
  ⟨h.credentials ++ [(username, realm, generateAuthKey md5 username realm password)]⟩

/-- `SimpleAuthHandler::auth_handle`: first-match scan of the table; the
source address argument is accepted and ignored (`_src_addr`). -/
def authHandle (h : SimpleAuthHandler) (username realm _srcAddr : String) :
    Except String (List Nat) :=
  match h.credentials.find? (fun c => c.1 == username && c.2.1 == realm) with
  | some c => .ok c.2.2
  | none => .error ("Failed to find key for " ++ username ++ "/" ++ realm)

/-- The credential table built by `TurnServerManager::start`: one
`add_credential` per configured user, all under the configured realm. -/
def buildAuthHandler (md5 : String → List Nat) (realm : String)
    (users : List (String × String)) : SimpleAuthHandler :=
  users.foldl (fun h u => addCredential md5 h u.1 realm u.2) ⟨[]⟩

theorem buildAuthHandler_credentials (md5 : String → List Nat) (realm : String)
    (users : List (String × String)) :
    (buildAuthHandler md5 realm users).credentials =
      users.map (fun u => (u.1, realm, generateAuthKey md5 u.1 realm u.2)) := by
  have key : ∀ (us : List (String × String)) (acc : List (String × String × List Nat)),
      (us.foldl (fun h u => addCredential md5 h u.1 realm u.2) ⟨acc⟩).credentials =
        acc ++ us.map (fun u => (u.1, realm, generateAuthKey md5 u.1 realm u.2)) := by
    intro us
    induction us with
    | nil => intro acc; simp
    | cons u rest ih =>
      intro acc
      simp only [List.foldl_cons, List.map_cons]
      rw [addCredential, ih]
      simp
  simpa using key users []

theorem find?_first_of_nodup (users : List (String × String)) (u p : String)
    (hmem : (u, p) ∈ users) (hnodup : (users.map Prod.fst).Nodup) :
    users.find? (fun x => x.1 == u) = some (u, p) := by
  induction users with
  | nil => simp at hmem
  | cons a rest ih =>
    rcases List.mem_cons.mp hmem with heq | hmem2
    · subst heq
      simp [List.find?]
    · by_cases ha : a.1 = u
      · exfalso
        have humem : u ∈ rest.map Prod.fst := by
          exact List.mem_map.mpr ⟨(u, p), hmem2, rfl⟩
        have := (List.nodup_cons.mp hnodup).1
        rw [ha] at this
        exact this humem
      · have hbeq : (a.1 == u) = false := by
          simp [ha]
        simp [List.find?, hbeq]
        exact ih hmem2 (List.nodup_cons.mp hnodup).2

theorem authHandle_of_find_first (md5 : String → List Nat) (realm : String)
    (users : List (String × String)) (u p srcA : String)
    (hfirst : users.find? (fun x => x.1 == u) = some (u, p)) :
    authHandle (buildAuthHandler md5 realm users) u realm srcA =
      .ok (generateAuthKey md5 u realm p) := by
  rw [authHandle, buildAuthHandler_credentials]
  rw [List.find?_map]
  have hpred : ((fun c : String × String × List Nat => c.1 == u && c.2.1 == realm) ∘
      (fun v : String × String => (v.1, realm, generateAuthKey md5 v.1 realm v.2))) =
      (fun x : String × String => x.1 == u) := by
    funext x
    simp
  rw [hpred, hfirst]
  rfl

/-- C8 counterexample: `add_credential` pushes duplicate (username, realm)
entries instead of replacing them, and `auth_handle` returns the first match,
so with the same username installed twice the second installed credential's
lookup returns the FIRST password's key, not the MD5-style digest of its own
password — refuting "for every installed credential ... lookup returns the
key MD5(username:realm:password)". -/
theorem auth_duplicate_credential_counterexample :
    ("u", "p2") ∈ [("u", "p1"), ("u", "p2")] ∧
    (authHandle (buildAuthHandler (fun s => s.toList.map Char.toNat) "r"
        [("u", "p1"), ("u", "p2")]) "u" "r" "10.0.0.1").toOption =
      some (generateAuthKey (fun s => s.toList.map Char.toNat) "u" "r" "p1") ∧
    generateAuthKey (fun s => s.toList.map Char.toNat) "u" "r" "p1" ≠
      generateAuthKey (fun s => s.toList.map Char.toNat) "u" "r" "p2" ∧
    (authHandle (buildAuthHandler (fun s => s.toList.map Char.toNat) "r"
        [("u", "p1"), ("u", "p2")]) "u" "r" "10.0.0.1").toOption ≠
      some (generateAuthKey (fun s => s.toList.map Char.toNat) "u" "r" "p2") := by
  refine ⟨by decide, by decide, by decide, by decide⟩

/-- C8 amended: a lookup of (username, realm) returns the key of the EARLIEST
credential installed for that pair — duplicates are pushed, not replaced — so
an installed credential's lookup returns the key built over its own
`username:realm:password` exactly when no earlier install used the same pair,
in particular whenever the configured usernames are distinct; the source
address cannot change any lookup's result; a pair that is not installed
yields an error value, not an exception. The digest itself is the external
crate's MD5, abstracted as the parameter `md5` applied to the exact
`username:realm:password` concatenation. -/
theorem auth_lookup_first_wins (md5 : String → List Nat) (realm : String)
    (users : List (String × String)) (u p srcA srcB : String)
    (hfirst : users.find? (fun x => x.1 == u) = some (u, p)) :
    authHandle (buildAuthHandler md5 realm users) u realm srcA =
      .ok (generateAuthKey md5 u realm p) ∧
    (∀ u2 r2, authHandle (buildAuthHandler md5 realm users) u2 r2 srcA =
        authHandle (buildAuthHandler md5 realm users) u2 r2 srcB) ∧
    (∀ u2 r2, ¬(u2 ∈ users.map Prod.fst ∧ r2 = realm) →
        ∃ msg, authHandle (buildAuthHandler md5 realm users) u2 r2 srcA = .error msg) ∧
    (∀ u3 p3, (u3, p3) ∈ users → (users.map Prod.fst).Nodup →
        authHandle (buildAuthHandler md5 realm users) u3 realm srcA =
          .ok (generateAuthKey md5 u3 realm p3)) := by
  refine ⟨authHandle_of_find_first md5 realm users u p srcA hfirst,
    fun u2 r2 => rfl, ?_, ?_⟩
  · intro u2 r2 hnot
    rw [authHandle, buildAuthHandler_credentials]
    have hfind : (users.map (fun v => (v.1, realm, generateAuthKey md5 v.1 realm v.2))).find?
        (fun c => c.1 == u2 && c.2.1 == r2) = none := by
      rw [List.find?_eq_none]
      intro c hc hpred
      rcases List.mem_map.mp hc with ⟨v, hv, hvc⟩
      subst hvc
      simp at hpred
      exact hnot ⟨List.mem_map.mpr ⟨v, hv, hpred.1⟩, hpred.2.symm⟩
    rw [hfind]
    exact ⟨_, rfl⟩
  · intro u3 p3 hmem hnodup
    exact authHandle_of_find_first md5 realm users u3 p3 srcA
      (find?_first_of_nodup users u3 p3 hmem hnodup)

/-- Witness for the amended C8 at a concrete table and a concrete digest
function. -/
theorem auth_lookup_first_wins_witness :
    ([("u", "p"), ("w", "q")] : List (String × String)).find?
        (fun x => x.1 == "u") = some ("u", "p") ∧
    authHandle (buildAuthHandler (fun s => [s.length]) "r" [("u", "p"), ("w", "q")])
        "u" "r" "10.0.0.1" =
      .ok (generateAuthKey (fun s => [s.length]) "u" "r" "p") :=
  ⟨by decide,
    (auth_lookup_first_wins (fun s => [s.length]) "r" [("u", "p"), ("w", "q")]
      "u" "p" "10.0.0.1" "10.0.0.2" (by decide)).1⟩

/-! ### TURN connection descriptor and /api/turn-config (C9) -/

/-- `TurnConnectionDetails` of src/turn-server/src/lib.rs. -/
structure TurnConnectionDetails where
  urls : List String
  username : String
  credential : String
deriving DecidableEq, Repr

/-- `TurnConfig` of src/turn-server/src/lib.rs; the public IP is modelled
in its advertised string rendering. -/
structure TurnConfig where
  public_ip : String
  port : Nat
  realm : String
  users : List (String × String)
deriving DecidableEq, Repr

/-- `TurnServerManager::get_connection_details`. -/
def getConnectionDetails (c : TurnConfig) : TurnConnectionDetails :=
  ⟨["turn:" ++ c.public_ip ++ ":" ++ toString c.port,
    "turn:" ++ c.public_ip ++ ":" ++ toString c.port ++ "?transport=tcp"],
   ((c.users.head?).map Prod.fst).getD "",
   ((c.users.head?).map Prod.snd).getD ""⟩

/-- Result of GET `/api/turn-config`. -/
inductive TurnConfigResponse where
  | ok (body : TurnConnectionDetails)
  | notFound
deriving DecidableEq, Repr

/-- HTTP status of a `/api/turn-config` response: `Json(..)` responds 200,
`StatusCode::NOT_FOUND` responds 404. -/
def TurnConfigResponse.status : TurnConfigResponse → Nat
  | .ok _ => 200
  | .notFound => 404

/-- `get_turn_config` of src/web-server/src/lib.rs over the optional
`turn_details` of the app state. -/
def getTurnConfig : Option TurnConnectionDetails → TurnConfigResponse
  | some d => .ok d
  | none => .notFound

/-- C9: the connection descriptor for public IP `ip`, port `q` and first
user `(u, p)` is exactly the two turn URLs with that username and credential,
and `/api/turn-config` returns it with status 200 when TURN is configured and
404 when it is not. -/
theorem turn_config_endpoint (ip realm u p : String) (q : Nat)
    (rest : List (String × String)) :
    getConnectionDetails ⟨ip, q, realm, (u, p) :: rest⟩ =
      ⟨["turn:" ++ ip ++ ":" ++ toString q,
        "turn:" ++ ip ++ ":" ++ toString q ++ "?transport=tcp"], u, p⟩ ∧
    getTurnConfig (some (getConnectionDetails ⟨ip, q, realm, (u, p) :: rest⟩)) =
      .ok (getConnectionDetails ⟨ip, q, realm, (u, p) :: rest⟩) ∧
    (getTurnConfig (some (getConnectionDetails ⟨ip, q, realm, (u, p) :: rest⟩))).status =
      200 ∧
    getTurnConfig none = .notFound ∧
    (getTurnConfig none).status = 404 :=
  ⟨rfl, rfl, rfl, rfl, rfl⟩

/-! ### C5: envelopes before registration -/

/-- Whether a client envelope is a `register`. -/
def SignalMsg.isRegisterMsg : SignalMsg → Bool
  | .register _ => true
  | _ => false

/-- C5: a non-`register` envelope from a session whose `user_registered` flag
is still false puts `Error{"Not registered"}` into that session's own outbox,
leaves the session alive and unregistered, and changes neither the registry
nor any other session. -/
theorem not_registered_error (h : Hub) (sid : String) (sess : Session) (msg : SignalMsg)
    (hs : lookupS sid h.sessions = some sess) (hflag : sess.regFlag = false)
    (hmsg : msg.isRegisterMsg = false) :
    (hubStep h (.recv sid msg)).registry = h.registry ∧
    lookupS sid (hubStep h (.recv sid msg)).sessions =
      some { sess with outbox := enqueue sess.outbox (.error "Not registered") } ∧
    (∀ id, id ≠ sid →
      lookupS id (hubStep h (.recv sid msg)).sessions = lookupS id h.sessions) := by
  rw [hubStep_recv_some msg hs]
  cases msg with
  | register name => simp [SignalMsg.isRegisterMsg] at hmsg
  | discover =>
    refine ⟨by simp [processMsg, hflag], ?_, ?_⟩
    · simp [processMsg, hflag, lookupS_sendTo_self, hs]
    · intro id hid
      simp [processMsg, hflag, lookupS_sendTo_ne _ _ hid]
  | offer target payload =>
    refine ⟨by simp [processMsg, hflag], ?_, ?_⟩
    · simp [processMsg, hflag, lookupS_sendTo_self, hs]
    · intro id hid
      simp [processMsg, hflag, lookupS_sendTo_ne _ _ hid]
  | answer target payload =>
    refine ⟨by simp [processMsg, hflag], ?_, ?_⟩
    · simp [processMsg, hflag, lookupS_sendTo_self, hs]
    · intro id hid
      simp [processMsg, hflag, lookupS_sendTo_ne _ _ hid]
  | ice_candidate target payload =>
    refine ⟨by simp [processMsg, hflag], ?_, ?_⟩
    · simp [processMsg, hflag, lookupS_sendTo_self, hs]
    · intro id hid
      simp [processMsg, hflag, lookupS_sendTo_ne _ _ hid]

/-- Witness for C5: a fresh, unregistered session sends `discover` (scenario
S4) and receives `Error{"Not registered"}` while the registry stays empty. -/
theorem not_registered_error_witness :
    (lookupS "C" (runHub [.attach "C"]).sessions = some ⟨false, []⟩ ∧
      (Session.mk false []).regFlag = false ∧
      SignalMsg.discover.isRegisterMsg = false) ∧
    (hubStep (runHub [.attach "C"]) (.recv "C" .discover)).registry =
      (runHub [.attach "C"]).registry ∧
    lookupS "C" (hubStep (runHub [.attach "C"]) (.recv "C" .discover)).sessions =
      some ⟨false, enqueue [] (.error "Not registered")⟩ :=
  ⟨⟨by decide, rfl, rfl⟩,
    (not_registered_error (runHub [.attach "C"]) "C" ⟨false, []⟩ .discover
      (by decide) rfl rfl).1,
    (not_registered_error (runHub [.attach "C"]) "C" ⟨false, []⟩ .discover
      (by decide) rfl rfl).2.1⟩

/-! ### C3: effect of a register -/

/-- C3: processing `register` for a live session installs the peer in the
registry, enqueues to that peer — in order — `Registered` then `UserList`
whose users are exactly the post-insert registry snapshot (including the peer
itself), enqueues `UserJoined` to every other registry member, and leaves
every session outside the registry untouched. -/
theorem register_effect (h h2 : Hub) (sid name : String) (sess : Session)
    (snap : List UserInfo)
    (hs : lookupS sid h.sessions = some sess)
    (hh2 : h2 = hubStep h (.recv sid (.register name)))
    (hsnap : snap = snapshotOf (insertPair sid name h.registry)) :
    lookupS sid h2.registry = some name ∧
    lookupS sid h2.sessions =
      some ⟨true, enqueue (enqueue sess.outbox (.registered sid)) (.user_list snap)⟩ ∧
    List.IsSuffix [.registered sid, .user_list snap]
      (enqueue (enqueue sess.outbox (.registered sid)) (.user_list snap)) ∧
    (⟨sid, name⟩ : UserInfo) ∈ snap ∧
    (∀ u : UserInfo, u ∈ snap ↔ (u.user_id, u.display_name) ∈ insertPair sid name h.registry) ∧
    (∀ id s0, id ≠ sid → id ∈ keysOf h.registry → lookupS id h.sessions = some s0 →
      lookupS id h2.sessions =
        some { s0 with outbox := enqueue s0.outbox (.user_joined sid name) }) ∧
    (∀ id, id ≠ sid → id ∉ keysOf h.registry →
      lookupS id h2.sessions = lookupS id h.sessions) := by
  subst hh2
  subst hsnap
  rw [register_core name hs]
  refine ⟨?_, ?_, enqueue_suffix_two _ _ _, ?_, ?_, ?_, ?_⟩
  · simp [lookupS_insertPair]
  · simp [lookupS_setFlag_self, lookupS_broadcastExcept, lookupS_sendTo_self, hs]
  · exact List.mem_map_of_mem _ (List.mem_append_right _ (List.mem_singleton_self _))
  · intro u
    constructor
    · intro hu
      rcases List.mem_map.mp hu with ⟨pr, hpr, hpu⟩
      cases pr with
      | mk a b =>
        cases hpu
        exact hpr
    · intro hu
      exact List.mem_map_of_mem _ hu
  · intro id s0 hid hreg hls
    have hkey : id ∈ keysOf (insertPair sid name h.registry) := by
      rw [mem_keysOf_iff, lookupS_insertPair, if_neg hid]
      exact (mem_keysOf_iff id h.registry).mp hreg
    rw [lookupS_setFlag_ne _ _ hid, lookupS_broadcastExcept,
      lookupS_sendTo_ne _ _ hid, lookupS_sendTo_ne _ _ hid, hls]
    simp [hid, hkey]
  · intro id hid hreg
    have hkey : id ∉ keysOf (insertPair sid name h.registry) := by
      rw [mem_keysOf_iff, lookupS_insertPair, if_neg hid]
      rw [mem_keysOf_iff] at hreg
      simpa using hreg
    rw [lookupS_setFlag_ne _ _ hid, lookupS_broadcastExcept,
      lookupS_sendTo_ne _ _ hid, lookupS_sendTo_ne _ _ hid]
    cases hlk : lookupS id h.sessions <;> simp [hkey]

/-- Witness for C3: scenario S1, second peer B registering as "bob" next to
the already registered "alice". -/
theorem register_effect_witness :
    lookupS "B" (runHub [.attach "A", .recv "A" (.register "alice"), .attach "B"]).sessions =
      some ⟨false, []⟩ ∧
    lookupS "B" (hubStep (runHub [.attach "A", .recv "A" (.register "alice"), .attach "B"])
        (.recv "B" (.register "bob"))).sessions =
      some ⟨true, [.registered "B", .user_list [⟨"A", "alice"⟩, ⟨"B", "bob"⟩]]⟩ ∧
    lookupS "A" (hubStep (runHub [.attach "A", .recv "A" (.register "alice"), .attach "B"])
        (.recv "B" (.register "bob"))).sessions =
      some ⟨true, [.registered "A", .user_list [⟨"A", "alice"⟩], .user_joined "B" "bob"]⟩ := by
  have hs : lookupS "B"
      (runHub [.attach "A", .recv "A" (.register "alice"), .attach "B"]).sessions =
      some ⟨false, []⟩ := by decide
  have main := register_effect (runHub [.attach "A", .recv "A" (.register "alice"), .attach "B"])
    (hubStep (runHub [.attach "A", .recv "A" (.register "alice"), .attach "B"])
      (.recv "B" (.register "bob")))
    "B" "bob" ⟨false, []⟩
    (snapshotOf (insertPair "B" "bob"
      (runHub [.attach "A", .recv "A" (.register "alice"), .attach "B"]).registry))
    hs rfl rfl
  refine ⟨hs, ?_, ?_⟩
  · exact main.2.1.trans (by decide)
  · exact (main.2.2.2.2.2.1 "A" ⟨true, [.registered "A", .user_list [⟨"A", "alice"⟩]]⟩
      (by decide) (by decide) (by decide)).trans (by decide)

/-! ### C2: a second register is not ignored -/

/-- C2 counterexample: after A registered as "alice" (and B as "bob"), a
second `register` from A's session is processed again — the registry entry
for A changes to the new display name and B's outbox receives a fresh
`UserJoined` envelope, refuting both "the registry is unchanged" and "no
envelope is emitted to any peer". -/
theorem second_register_counterexample :
    lookupS "A" (runHub [.attach "A", .recv "A" (.register "alice"), .attach "B",
        .recv "B" (.register "bob")]).registry = some "alice" ∧
    lookupS "A" (runHub [.attach "A", .recv "A" (.register "alice"), .attach "B",
        .recv "B" (.register "bob"), .recv "A" (.register "alice2")]).registry =
      some "alice2" ∧
    (lookupS "B" (runHub [.attach "A", .recv "A" (.register "alice"), .attach "B",
        .recv "B" (.register "bob")]).sessions).map Session.outbox =
      some [.registered "B",
        .user_list [⟨"A", "alice"⟩, ⟨"B", "bob"⟩]] ∧
    (lookupS "B" (runHub [.attach "A", .recv "A" (.register "alice"), .attach "B",
        .recv "B" (.register "bob"), .recv "A" (.register "alice2")]).sessions).map
        Session.outbox =
      some [.registered "B",
        .user_list [⟨"A", "alice"⟩, ⟨"B", "bob"⟩],
        .user_joined "A" "alice2"] := by
  refine ⟨by decide, by decide, by decide, by decide⟩

/-- C2 amended: a `register` received after an earlier successful `register`
of the same session is processed exactly like a first one — the registry
entry is replaced with the new display name, the session again receives
`Registered` and a fresh `UserList`, and every other registry member receives
another `UserJoined` with the new name. -/
theorem second_register_reprocessed (h h2 : Hub) (sid oldName newName : String)
    (sess : Session)
    (hs : lookupS sid h.sessions = some sess)
    (_hflag : sess.regFlag = true)
    (_hreg : lookupS sid h.registry = some oldName)
    (hh2 : h2 = hubStep h (.recv sid (.register newName))) :
    lookupS sid h2.registry = some newName ∧
    lookupS sid h2.sessions =
      some ⟨true, enqueue (enqueue sess.outbox (.registered sid))
        (.user_list (snapshotOf (insertPair sid newName h.registry)))⟩ ∧
    (∀ id s0, id ≠ sid → id ∈ keysOf h.registry → lookupS id h.sessions = some s0 →
      lookupS id h2.sessions =
        some { s0 with outbox := enqueue s0.outbox (.user_joined sid newName) }) := by
  subst hh2
  rw [register_core newName hs]
  refine ⟨?_, ?_, ?_⟩
  · simp [lookupS_insertPair]
  · simp [lookupS_setFlag_self, lookupS_broadcastExcept, lookupS_sendTo_self, hs]
  · intro id s0 hid hregk hls
    have hkey : id ∈ keysOf (insertPair sid newName h.registry) := by
      rw [mem_keysOf_iff, lookupS_insertPair, if_neg hid]
      exact (mem_keysOf_iff id h.registry).mp hregk
    rw [lookupS_setFlag_ne _ _ hid, lookupS_broadcastExcept,
      lookupS_sendTo_ne _ _ hid, lookupS_sendTo_ne _ _ hid, hls]
    simp [hid, hkey]

/-- Witness for the amended C2 at the concrete double-register trace. -/
theorem second_register_reprocessed_witness :
    (lookupS "A" (runHub [.attach "A", .recv "A" (.register "alice"), .attach "B",
        .recv "B" (.register "bob")]).sessions =
      some ⟨true, [.registered "A", .user_list [⟨"A", "alice"⟩],
        .user_joined "B" "bob"]⟩ ∧
      lookupS "A" (runHub [.attach "A", .recv "A" (.register "alice"), .attach "B",
        .recv "B" (.register "bob")]).registry = some "alice") ∧
    lookupS "A" (hubStep (runHub [.attach "A", .recv "A" (.register "alice"), .attach "B",
        .recv "B" (.register "bob")]) (.recv "A" (.register "alice2"))).registry =
      some "alice2" := by
  have hs : lookupS "A" (runHub [.attach "A", .recv "A" (.register "alice"), .attach "B",
      .recv "B" (.register "bob")]).sessions =
      some ⟨true, [.registered "A", .user_list [⟨"A", "alice"⟩],
        .user_joined "B" "bob"]⟩ := by decide
  have hreg : lookupS "A" (runHub [.attach "A", .recv "A" (.register "alice"), .attach "B",
      .recv "B" (.register "bob")]).registry = some "alice" := by decide
  exact ⟨⟨hs, hreg⟩,
    (second_register_reprocessed _ _ "A" "alice" "alice2" _ hs rfl hreg rfl).1⟩

/-! ### C4: directed routing -/

/-- The three directed signaling kinds routed by `handle_socket`. -/
inductive RouteKind where
  | offer
  | answer
  | ice
deriving DecidableEq, Repr

/-- The client envelope of a routing kind. -/
def routeClient : RouteKind → String → String → SignalMsg
  | .offer, t, p => .offer t p
  | .answer, t, p => .answer t p
  | .ice, t, p => .ice_candidate t p

/-- The server envelope a routed kind produces at the target. -/
def routeServer : RouteKind → String → String → ServerMsg
  | .offer, f, p => .offer f p
  | .answer, f, p => .answer f p
  | .ice, f, p => .ice_candidate f p

/-- C4 counterexample: a registered peer A routing an offer to its own
user_id. The target is present in the registry, so the claim requires "A
receives nothing", yet the routed envelope lands in A's own outbox. -/
theorem route_self_target_counterexample :
    (lookupS "A" (runHub [.attach "A", .recv "A" (.register "alice")]).sessions).map
        Session.outbox =
      some [.registered "A", .user_list [⟨"A", "alice"⟩]] ∧
    lookupS "A" (runHub [.attach "A", .recv "A" (.register "alice")]).registry =
      some "alice" ∧
    (lookupS "A" (runHub [.attach "A", .recv "A" (.register "alice"),
        .recv "A" (.offer "A" "SDP")]).sessions).map Session.outbox =
      some [.registered "A", .user_list [⟨"A", "alice"⟩], .offer "A" "SDP"] := by
  refine ⟨by decide, by decide, by decide⟩

/-- C4 amended: for a route request of any kind from a registered peer A to
target t: if t is in the registry, t's session is enqueued the corresponding
envelope with `from_user_id = A` and the payload verbatim, the registry is
unchanged, no session other than t changes, and A receives nothing provided
A is not the target itself (a self-targeted route lands in A's own outbox);
if t is absent, A is enqueued `Error{"Target user not found"}` and no other
session changes. -/
theorem route_effect (h h2 : Hub) (k : RouteKind) (a t payload : String) (sess : Session)
    (ha : lookupS a h.sessions = some sess) (hflag : sess.regFlag = true)
    (hh2 : h2 = hubStep h (.recv a (routeClient k t payload))) :
    h2.registry = h.registry ∧
    ((lookupS t h.registry).isSome →
      (∀ sT, lookupS t h.sessions = some sT →
        lookupS t h2.sessions =
          some { sT with outbox := enqueue sT.outbox (routeServer k a payload) }) ∧
      (a ≠ t → lookupS a h2.sessions = some sess) ∧
      (∀ id, id ≠ t → lookupS id h2.sessions = lookupS id h.sessions)) ∧
    (lookupS t h.registry = none →
      lookupS a h2.sessions =
        some { sess with outbox := enqueue sess.outbox (.error "Target user not found") } ∧
      (∀ id, id ≠ a → lookupS id h2.sessions = lookupS id h.sessions)) := by
  subst hh2
  cases k with
  | offer =>
    rw [hubStep_recv_some _ ha]
    cases hreg : lookupS t h.registry with
    | some v =>
      refine ⟨by simp [processMsg, routeClient, hflag, hreg], ?_, ?_⟩
      · intro _
        refine ⟨?_, ?_, ?_⟩
        · intro sT hsT
          simp [processMsg, routeClient, routeServer, hflag, hreg,
            lookupS_sendTo_self, hsT]
        · intro hat
          simp [processMsg, routeClient, hflag, hreg, lookupS_sendTo_ne _ _ hat, ha]
        · intro id hid
          simp [processMsg, routeClient, hflag, hreg, lookupS_sendTo_ne _ _ hid]
      · intro hnone
        simp at hnone
    | none =>
      refine ⟨by simp [processMsg, routeClient, hflag, hreg], ?_, ?_⟩
      · intro hsome
        simp at hsome
      · intro _
        refine ⟨?_, ?_⟩
        · simp [processMsg, routeClient, hflag, hreg, lookupS_sendTo_self, ha]
        · intro id hid
          simp [processMsg, routeClient, hflag, hreg, lookupS_sendTo_ne _ _ hid]
  | answer =>
    rw [hubStep_recv_some _ ha]
    cases hreg : lookupS t h.registry with
    | some v =>
      refine ⟨by simp [processMsg, routeClient, hflag, hreg], ?_, ?_⟩
      · intro _
        refine ⟨?_, ?_, ?_⟩
        · intro sT hsT
          simp [processMsg, routeClient, routeServer, hflag, hreg,
            lookupS_sendTo_self, hsT]
        · intro hat
          simp [processMsg, routeClient, hflag, hreg, lookupS_sendTo_ne _ _ hat, ha]
        · intro id hid
          simp [processMsg, routeClient, hflag, hreg, lookupS_sendTo_ne _ _ hid]
      · intro hnone
        simp at hnone
    | none =>
      refine ⟨by simp [processMsg, routeClient, hflag, hreg], ?_, ?_⟩
      · intro hsome
        simp at hsome
      · intro _
        refine ⟨?_, ?_⟩
        · simp [processMsg, routeClient, hflag, hreg, lookupS_sendTo_self, ha]
        · intro id hid
          simp [processMsg, routeClient, hflag, hreg, lookupS_sendTo_ne _ _ hid]
  | ice =>
    rw [hubStep_recv_some _ ha]
    cases hreg : lookupS t h.registry with
    | some v =>
      refine ⟨by simp [processMsg, routeClient, hflag, hreg], ?_, ?_⟩
      · intro _
        refine ⟨?_, ?_, ?_⟩
        · intro sT hsT
          simp [processMsg, routeClient, routeServer, hflag, hreg,
            lookupS_sendTo_self, hsT]
        · intro hat
          simp [processMsg, routeClient, hflag, hreg, lookupS_sendTo_ne _ _ hat, ha]
        · intro id hid
          simp [processMsg, routeClient, hflag, hreg, lookupS_sendTo_ne _ _ hid]
      · intro hnone
        simp at hnone
    | none =>
      refine ⟨by simp [processMsg, routeClient, hflag, hreg], ?_, ?_⟩
      · intro hsome
        simp at hsome
      · intro _
        refine ⟨?_, ?_⟩
        · simp [processMsg, routeClient, hflag, hreg, lookupS_sendTo_self, ha]
        · intro id hid
          simp [processMsg, routeClient, hflag, hreg, lookupS_sendTo_ne _ _ hid]

/-- Witness for the amended C4: scenarios S2 (routing to a present target)
and S3 (routing to the absent "ghost"). -/
theorem route_effect_witness :
    (lookupS "A" (runHub [.attach "A", .recv "A" (.register "alice"), .attach "B",
        .recv "B" (.register "bob")]).sessions =
      some ⟨true, [.registered "A", .user_list [⟨"A", "alice"⟩],
        .user_joined "B" "bob"]⟩) ∧
    lookupS "B" (hubStep (runHub [.attach "A", .recv "A" (.register "alice"), .attach "B",
        .recv "B" (.register "bob")]) (.recv "A" (routeClient .offer "B" "SDPX"))).sessions =
      some ⟨true, [.registered "B", .user_list [⟨"A", "alice"⟩, ⟨"B", "bob"⟩],
        .offer "A" "SDPX"]⟩ ∧
    lookupS "A" (hubStep (runHub [.attach "A", .recv "A" (.register "alice"), .attach "B",
        .recv "B" (.register "bob")]) (.recv "A" (routeClient .offer "ghost" "SDPX"))).sessions =
      some ⟨true, [.registered "A", .user_list [⟨"A", "alice"⟩], .user_joined "B" "bob",
        .error "Target user not found"]⟩ := by
  have ha : lookupS "A" (runHub [.attach "A", .recv "A" (.register "alice"), .attach "B",
      .recv "B" (.register "bob")]).sessions =
      some ⟨true, [.registered "A", .user_list [⟨"A", "alice"⟩],
        .user_joined "B" "bob"]⟩ := by decide
  have hit := route_effect (runHub [.attach "A", .recv "A" (.register "alice"), .attach "B",
      .recv "B" (.register "bob")]) _ .offer "A" "B" "SDPX" _ ha rfl rfl
  have hmiss := route_effect (runHub [.attach "A", .recv "A" (.register "alice"), .attach "B",
      .recv "B" (.register "bob")]) _ .offer "A" "ghost" "SDPX" _ ha rfl rfl
  refine ⟨ha, ?_, ?_⟩
  · exact ((hit.2.1 (by decide)).1
      ⟨true, [.registered "B", .user_list [⟨"A", "alice"⟩, ⟨"B", "bob"⟩]]⟩
      (by decide)).trans (by decide)
  · exact ((hmiss.2.2 (by decide)).1).trans (by decide)

/-! ### C1: outbox overflow -/

theorem enqueue_of_full {q : List ServerMsg} (m : ServerMsg)
    (hfull : q.length = outboxCap) : enqueue q m = q.drop 1 ++ [m] := by
  rw [enqueue, if_neg]
  omega

theorem eraseKey_of_lookup_none {α : Type} {k : String} {l : List (String × α)}
    (h : lookupS k l = none) : eraseKey k l = l := by
  induction l with
  | nil => rfl
  | cons p rest ih =>
    rw [lookupS_cons] at h
    by_cases hk : p.1 = k
    · simp [hk] at h
    · rw [eraseKey_cons, if_neg hk, ih (by simpa [hk] using h)]

/-- One session's broadcast channel as seen by its single receiver, the
session's send task: the ring of sent-but-unreceived envelopes (oldest
first) and whether the receiver has been overrun. tokio's broadcast ring
holds `outboxCap` (128) values; a send to a full ring overwrites the oldest
value, which makes the receiver's next `recv()` return
`Err(RecvError::Lagged)`. -/
structure Chan where
  queued : List ServerMsg
  lagged : Bool
deriving DecidableEq, Repr

/-- `tx.send(msg)`: always succeeds from the sender's side; below capacity
the envelope is appended, at capacity it overwrites the oldest queued value
and overruns the receiver. -/
def sendChan (c : Chan) (m : ServerMsg) : Chan :=
  if c.queued.length < outboxCap then { c with queued := c.queued ++ [m] }
  else { queued := c.queued.drop 1 ++ [m], lagged := true }

/-- The envelopes the session's send task still forwards to the WebSocket
from this channel state: `while let Ok(msg) = rx.recv().await` (lib.rs:375)
forwards queued envelopes one by one, but its first `recv()` after an
overrun returns `Err(RecvError::Lagged)` and the `while let Ok` loop exits,
so an overrun receiver forwards none of the pending envelopes; the task's
end makes `handle_socket`'s `select!` abort the receive task, skipping the
disconnect cleanup, and the connection is dropped. -/
def sendTaskDelivers (c : Chan) : List ServerMsg :=
  if c.lagged then [] else c.queued

/-- C1 counterexample. First half: `broadcast::channel(100)` rounds the
capacity up to 128, so on the reachable trace where peer B's outbox holds
exactly 100 pending envelopes, one more routed envelope is appended — it is
not dropped and nothing else is lost, refuting drop-newest at the claim's
"full (100 pending messages)" point. Second half: at the true capacity of
128 the overflowing send overwrites the oldest envelope and overruns the
receiver, after which the send task forwards none of the pending envelopes
(it exits on `RecvError::Lagged`, closing the connection), refuting "the
session continues" and "all previously enqueued envelopes are still
delivered". -/
theorem outbox_overflow_counterexample :
    (lookupS "B" (runHub ([.attach "A", .recv "A" (.register "alice"), .attach "B",
        .recv "B" (.register "bob")] ++
        List.replicate 98 (Op.recv "A" (.offer "B" "fill")))).sessions).map
        (fun s => s.outbox.length) = some 100 ∧
    (lookupS "B" (runHub ([.attach "A", .recv "A" (.register "alice"), .attach "B",
        .recv "B" (.register "bob")] ++
        List.replicate 98 (Op.recv "A" (.offer "B" "fill")) ++
        [Op.recv "A" (.offer "B" "newest")])).sessions).map Session.outbox =
      some (ServerMsg.registered "B" ::
        ServerMsg.user_list [⟨"A", "alice"⟩, ⟨"B", "bob"⟩] ::
        (List.replicate 98 (ServerMsg.offer "A" "fill") ++
          [ServerMsg.offer "A" "newest"])) ∧
    sendChan ⟨List.replicate 128 (.user_left "x"), false⟩ (.offer "A" "P") =
      ⟨List.replicate 127 (.user_left "x") ++ [.offer "A" "P"], true⟩ ∧
    sendTaskDelivers (sendChan ⟨List.replicate 128 (.user_left "x"), false⟩
        (.offer "A" "P")) = [] ∧
    sendTaskDelivers ⟨List.replicate 128 (.user_left "x"), false⟩ =
      List.replicate 128 (.user_left "x") := by
  refine ⟨by decide, by decide, by decide, by decide, by decide⟩

/-- C1 amended: the outbox holds up to 128 pending envelopes
(`broadcast::channel(100)` is rounded up by tokio to the next power of two);
an envelope sent while fewer than 128 are pending is appended and nothing is
dropped or lost. An envelope sent while 128 are pending overwrites the
oldest pending envelope and overruns the receiver: the peer's send task then
exits on `RecvError::Lagged` without forwarding any of the pending
envelopes, ending the connection with the disconnect cleanup skipped. The
Hub-side send itself never retries, never errors, and removes no session and
no registry entry, and the sender's own session is untouched. -/
theorem outbox_overflow_lags_receiver (h h2 : Hub) (a t payload : String)
    (sa st : Session)
    (ha : lookupS a h.sessions = some sa) (hflag : sa.regFlag = true)
    (htr : (lookupS t h.registry).isSome) (hts : lookupS t h.sessions = some st)
    (hfull : st.outbox.length = outboxCap) (hat : a ≠ t)
    (hh2 : h2 = hubStep h (.recv a (.offer t payload))) :
    lookupS t h2.sessions =
      some { st with outbox := st.outbox.drop 1 ++ [.offer a payload] } ∧
    keysOf h2.sessions = keysOf h.sessions ∧
    h2.registry = h.registry ∧
    lookupS a h2.sessions = some sa ∧
    sendChan ⟨st.outbox, false⟩ (.offer a payload) =
      ⟨st.outbox.drop 1 ++ [.offer a payload], true⟩ ∧
    sendTaskDelivers (sendChan ⟨st.outbox, false⟩ (.offer a payload)) = [] ∧
    (∀ (q : List ServerMsg) (m : ServerMsg), q.length < outboxCap →
      sendChan ⟨q, false⟩ m = ⟨q ++ [m], false⟩ ∧
      sendTaskDelivers (sendChan ⟨q, false⟩ m) = q ++ [m]) ∧
    (∀ (q : List ServerMsg) (m : ServerMsg) (lag : Bool),
      (sendChan ⟨q, lag⟩ m).queued = enqueue q m) := by
  subst hh2
  rw [hubStep_recv_some _ ha]
  obtain ⟨v, hv⟩ := Option.isSome_iff_exists.mp htr
  have hsend : sendChan ⟨st.outbox, false⟩ (.offer a payload) =
      ⟨st.outbox.drop 1 ++ [.offer a payload], true⟩ := by
    rw [sendChan, if_neg (by simp [hfull])]
  refine ⟨?_, ?_, ?_, ?_, hsend, ?_, ?_, ?_⟩
  · simp [processMsg, hflag, hv, lookupS_sendTo_self, hts, enqueue_of_full _ hfull]
  · simp [processMsg, hflag, hv, sendTo, keysOf_mapSessions]
  · simp [processMsg, hflag, hv]
  · simp [processMsg, hflag, hv, lookupS_sendTo_ne _ _ hat, ha]
  · rw [hsend, sendTaskDelivers]
    simp
  · intro q m hlt
    constructor
    · rw [sendChan, if_pos (by simpa using hlt)]
    · rw [sendChan, if_pos (by simpa using hlt), sendTaskDelivers]
      simp
  · intro q m lag
    by_cases hlt : q.length < outboxCap
    · rw [sendChan, if_pos (by simpa using hlt), enqueue, if_pos hlt]
    · rw [sendChan, if_neg (by simpa using hlt), enqueue, if_neg hlt]

/-- Witness for the amended C1 at a hub whose peer B has 128 pending
envelopes. -/
theorem outbox_overflow_lags_receiver_witness :
    (lookupS "A" (Hub.mk [("A", "alice"), ("B", "bob")]
        [("A", ⟨true, []⟩), ("B", ⟨true, List.replicate 128 (.user_left "x")⟩)]).sessions =
      some ⟨true, []⟩ ∧
      (lookupS "B" (Hub.mk [("A", "alice"), ("B", "bob")]
        [("A", ⟨true, []⟩),
         ("B", ⟨true, List.replicate 128 (.user_left "x")⟩)]).registry).isSome = true ∧
      lookupS "B" (Hub.mk [("A", "alice"), ("B", "bob")]
        [("A", ⟨true, []⟩), ("B", ⟨true, List.replicate 128 (.user_left "x")⟩)]).sessions =
      some ⟨true, List.replicate 128 (.user_left "x")⟩ ∧
      (List.replicate 128 (ServerMsg.user_left "x")).length = outboxCap ∧
      ("A" : String) ≠ "B") ∧
    lookupS "B" (hubStep (Hub.mk [("A", "alice"), ("B", "bob")]
        [("A", ⟨true, []⟩), ("B", ⟨true, List.replicate 128 (.user_left "x")⟩)])
        (.recv "A" (.offer "B" "P"))).sessions =
      some ⟨true, List.replicate 127 (.user_left "x") ++ [.offer "A" "P"]⟩ ∧
    sendTaskDelivers (sendChan ⟨List.replicate 128 (.user_left "x"), false⟩
        (.offer "A" "P")) = [] := by
  refine ⟨⟨by decide, by decide, by decide, by decide, by decide⟩, ?_, ?_⟩
  · have main := outbox_overflow_lags_receiver
      (Hub.mk [("A", "alice"), ("B", "bob")]
        [("A", ⟨true, []⟩), ("B", ⟨true, List.replicate 128 (.user_left "x")⟩)]) _
      "A" "B" "P" ⟨true, []⟩ ⟨true, List.replicate 128 (.user_left "x")⟩
      (by decide) rfl (by decide) (by decide) (by decide) (by decide) rfl
    exact main.1.trans (by decide)
  · have main := outbox_overflow_lags_receiver
      (Hub.mk [("A", "alice"), ("B", "bob")]
        [("A", ⟨true, []⟩), ("B", ⟨true, List.replicate 128 (.user_left "x")⟩)]) _
      "A" "B" "P" ⟨true, []⟩ ⟨true, List.replicate 128 (.user_left "x")⟩
      (by decide) rfl (by decide) (by decide) (by decide) (by decide) rfl
    exact main.2.2.2.2.2.1

/-! ### C10: detach of a never-registered session still broadcasts -/

/-- C10: when a session terminates without ever having registered, the
disconnect block still broadcasts `UserLeft{user_id}` for its identity to
every registry member (so a peer can receive a `user_left` for an identity
it never saw a `user_joined` for); the registry itself is unchanged and the
session disappears. -/
theorem detach_unregistered_still_broadcasts (h h2 : Hub) (sid : String)
    (sess : Session)
    (hs : lookupS sid h.sessions = some sess) (_hflag : sess.regFlag = false)
    (hnr : lookupS sid h.registry = none)
    (hh2 : h2 = hubStep h (.detach sid)) :
    h2.registry = h.registry ∧
    lookupS sid h2.sessions = none ∧
    (∀ id s0, id ∈ keysOf h.registry → lookupS id h.sessions = some s0 →
      lookupS id h2.sessions =
        some { s0 with outbox := enqueue s0.outbox (.user_left sid) }) := by
  subst hh2
  rw [hubStep_detach_some hs]
  have herase : eraseKey sid h.registry = h.registry := eraseKey_of_lookup_none hnr
  refine ⟨herase, ?_, ?_⟩
  · simp [lookupS_eraseKey]
  · intro id s0 hid hls
    have hidne : id ≠ sid := by
      intro hcon
      subst hcon
      rw [mem_keysOf_iff, hnr] at hid
      simp at hid
    rw [lookupS_eraseKey, if_neg hidne, lookupS_broadcastExcept, hls]
    simp [hidne, herase, hid]

/-- Witness for C10: session C attaches and detaches without registering;
registered peer A receives `user_left C` despite never having received any
`user_joined` for C. -/
theorem detach_unregistered_still_broadcasts_witness :
    (lookupS "C" (runHub [.attach "A", .recv "A" (.register "alice"),
        .attach "C"]).sessions = some ⟨false, []⟩ ∧
      lookupS "C" (runHub [.attach "A", .recv "A" (.register "alice"),
        .attach "C"]).registry = none) ∧
    lookupS "A" (hubStep (runHub [.attach "A", .recv "A" (.register "alice"),
        .attach "C"]) (.detach "C")).sessions =
      some ⟨true, [.registered "A", .user_list [⟨"A", "alice"⟩], .user_left "C"]⟩ ∧
    (∀ d, ServerMsg.user_joined "C" d ∉
      [ServerMsg.registered "A", ServerMsg.user_list [⟨"A", "alice"⟩],
        ServerMsg.user_left "C"]) := by
  have hs : lookupS "C" (runHub [.attach "A", .recv "A" (.register "alice"),
      .attach "C"]).sessions = some ⟨false, []⟩ := by decide
  have hnr : lookupS "C" (runHub [.attach "A", .recv "A" (.register "alice"),
      .attach "C"]).registry = none := by decide
  have main := detach_unregistered_still_broadcasts
    (runHub [.attach "A", .recv "A" (.register "alice"), .attach "C"]) _ "C"
    ⟨false, []⟩ hs rfl hnr rfl
  refine ⟨⟨hs, hnr⟩, ?_, ?_⟩
  · exact (main.2.2 "A" ⟨true, [.registered "A", .user_list [⟨"A", "alice"⟩]]⟩
      (by decide) (by decide)).trans (by decide)
  · intro d
    simp

/-! ### C6: no self-notification -/

/-- `m` is not a join/leave notification about `owner` itself. -/
def SafeMsg (owner : String) (m : ServerMsg) : Prop :=
  (∀ d, m ≠ .user_joined owner d) ∧ m ≠ .user_left owner

/-- Every queued envelope of every session is safe for its owner. -/
def SafeSessions (ss : List (String × Session)) : Prop :=
  ∀ p ∈ ss, ∀ m ∈ p.2.outbox, SafeMsg p.1 m

theorem safeMsg_user_joined {owner u : String} (d : String) (hne : u ≠ owner) :
    SafeMsg owner (.user_joined u d) := by
  constructor
  · intro d2 heq
    injection heq with h1 h2
    exact hne h1
  · intro heq
    exact ServerMsg.noConfusion heq

theorem safeMsg_user_left {owner u : String} (hne : u ≠ owner) :
    SafeMsg owner (.user_left u) := by
  constructor
  · intro d2 heq
    exact ServerMsg.noConfusion heq
  · intro heq
    injection heq with h1
    exact hne h1

theorem safeMsg_other {owner : String} {m : ServerMsg}
    (hj : ∀ u d, m ≠ .user_joined u d) (hl : ∀ u, m ≠ .user_left u) :
    SafeMsg owner m :=
  ⟨fun d => hj owner d, hl owner⟩

theorem safeSessions_mapSessions {ss : List (String × Session)}
    (f : String → Session → Session)
    (hf : ∀ id sess m, m ∈ (f id sess).outbox → m ∈ sess.outbox ∨ SafeMsg id m)
    (hs : SafeSessions ss) : SafeSessions (mapSessions f ss) := by
  intro p hp m hm
  rcases List.mem_map.mp hp with ⟨q, hq, hqp⟩
  subst hqp
  rcases hf q.1 q.2 m hm with hold | hsafe
  · exact hs q hq m hold
  · exact hsafe

theorem safe_after_sendTo {ss : List (String × Session)} (target : String)
    (msg : ServerMsg) (hmsg : ∀ owner, SafeMsg owner msg)
    (hs : SafeSessions ss) : SafeSessions (sendTo target msg ss) := by
  rw [sendTo]
  apply safeSessions_mapSessions _ _ hs
  intro id sess m hm
  by_cases hid : id = target
  · rw [if_pos hid] at hm
    rcases mem_enqueue hm with h1 | h1
    · exact Or.inl h1
    · exact Or.inr (h1 ▸ hmsg id)
  · rw [if_neg hid] at hm
    exact Or.inl hm

theorem safe_after_broadcast_joined {ss : List (String × Session)}
    (selfId name : String) (ids : List String) (hs : SafeSessions ss) :
    SafeSessions (broadcastExcept selfId (.user_joined selfId name) ids ss) := by
  rw [broadcastExcept]
  apply safeSessions_mapSessions _ _ hs
  intro id sess m hm
  by_cases hid : id ≠ selfId ∧ id ∈ ids
  · rw [if_pos hid] at hm
    rcases mem_enqueue hm with h1 | h1
    · exact Or.inl h1
    · exact Or.inr (h1 ▸ safeMsg_user_joined name (Ne.symm hid.1))
  · rw [if_neg hid] at hm
    exact Or.inl hm

theorem safe_after_broadcast_left {ss : List (String × Session)}
    (selfId : String) (ids : List String) (hs : SafeSessions ss) :
    SafeSessions (broadcastExcept selfId (.user_left selfId) ids ss) := by
  rw [broadcastExcept]
  apply safeSessions_mapSessions _ _ hs
  intro id sess m hm
  by_cases hid : id ≠ selfId ∧ id ∈ ids
  · rw [if_pos hid] at hm
    rcases mem_enqueue hm with h1 | h1
    · exact Or.inl h1
    · exact Or.inr (h1 ▸ safeMsg_user_left (Ne.symm hid.1))
  · rw [if_neg hid] at hm
    exact Or.inl hm

theorem safe_after_setFlag {ss : List (String × Session)} (sid : String) (b : Bool)
    (hs : SafeSessions ss) : SafeSessions (setFlag sid b ss) := by
  rw [setFlag]
  apply safeSessions_mapSessions _ _ hs
  intro id sess m hm
  by_cases hid : id = sid
  · rw [if_pos hid] at hm
    exact Or.inl hm
  · rw [if_neg hid] at hm
    exact Or.inl hm

theorem safe_after_eraseKey {ss : List (String × Session)} (sid : String)
    (hs : SafeSessions ss) : SafeSessions (eraseKey sid ss) := by
  intro p hp m hm
  exact hs p (List.mem_of_mem_filter hp) m hm

theorem safeAll_registered (u : String) : ∀ owner, SafeMsg owner (.registered u) :=
  fun _ => ⟨fun _ h => ServerMsg.noConfusion h, fun h => ServerMsg.noConfusion h⟩

theorem safeAll_user_list (l : List UserInfo) : ∀ owner, SafeMsg owner (.user_list l) :=
  fun _ => ⟨fun _ h => ServerMsg.noConfusion h, fun h => ServerMsg.noConfusion h⟩

theorem safeAll_offer (f p : String) : ∀ owner, SafeMsg owner (.offer f p) :=
  fun _ => ⟨fun _ h => ServerMsg.noConfusion h, fun h => ServerMsg.noConfusion h⟩

theorem safeAll_answer (f p : String) : ∀ owner, SafeMsg owner (.answer f p) :=
  fun _ => ⟨fun _ h => ServerMsg.noConfusion h, fun h => ServerMsg.noConfusion h⟩

theorem safeAll_ice (f p : String) : ∀ owner, SafeMsg owner (.ice_candidate f p) :=
  fun _ => ⟨fun _ h => ServerMsg.noConfusion h, fun h => ServerMsg.noConfusion h⟩

theorem safeAll_error (e : String) : ∀ owner, SafeMsg owner (.error e) :=
  fun _ => ⟨fun _ h => ServerMsg.noConfusion h, fun h => ServerMsg.noConfusion h⟩

theorem safeSessions_step (h : Hub) (op : Op) (hs : SafeSessions h.sessions) :
    SafeSessions (hubStep h op).sessions := by
  cases op with
  | attach sid =>
    simp only [hubStep]
    split
    · exact hs
    · intro p hp m hm
      rcases List.mem_append.mp hp with hp1 | hp1
      · exact hs p hp1 m hm
      · rw [List.mem_singleton.mp hp1] at hm
        simp at hm
  | recv sid msg =>
    cases hls : lookupS sid h.sessions with
    | none =>
      rw [hubStep_recv_none msg hls]
      exact hs
    | some sess =>
      rw [hubStep_recv_some msg hls]
      cases msg with
      | register name =>
        apply safe_after_setFlag
        apply safe_after_broadcast_joined
        apply safe_after_sendTo _ _ (safeAll_user_list _)
        apply safe_after_sendTo _ _ (safeAll_registered _)
        exact hs
      | discover =>
        simp only [processMsg]
        split
        · exact safe_after_sendTo _ _ (safeAll_user_list _) hs
        · exact safe_after_sendTo _ _ (safeAll_error _) hs
      | offer target payload =>
        simp only [processMsg]
        split
        · split
          · exact safe_after_sendTo _ _ (safeAll_offer _ _) hs
          · exact safe_after_sendTo _ _ (safeAll_error _) hs
        · exact safe_after_sendTo _ _ (safeAll_error _) hs
      | answer target payload =>
        simp only [processMsg]
        split
        · split
          · exact safe_after_sendTo _ _ (safeAll_answer _ _) hs
          · exact safe_after_sendTo _ _ (safeAll_error _) hs
        · exact safe_after_sendTo _ _ (safeAll_error _) hs
      | ice_candidate target payload =>
        simp only [processMsg]
        split
        · split
          · exact safe_after_sendTo _ _ (safeAll_ice _ _) hs
          · exact safe_after_sendTo _ _ (safeAll_error _) hs
        · exact safe_after_sendTo _ _ (safeAll_error _) hs
  | detach sid =>
    simp only [hubStep]
    split
    · apply safe_after_eraseKey
      apply safe_after_broadcast_left
      exact hs
    · exact hs

theorem safeSessions_runHub (ops : List Op) : SafeSessions (runHub ops).sessions := by
  have key : ∀ (l : List Op) (h : Hub), SafeSessions h.sessions →
      SafeSessions (l.foldl hubStep h).sessions := by
    intro l
    induction l with
    | nil => intro h hh; exact hh
    | cons op rest ih =>
      intro h hh
      exact ih _ (safeSessions_step h op hh)
  apply key
  intro p hp m hm
  simp [initHub] at hp

/-- C6: over any sequence of hub events, no session's outbox ever holds a
`user_joined` or `user_left` envelope carrying that session's own identity. -/
theorem no_self_notification (ops : List Op) (sid : String) (sess : Session)
    (hs : lookupS sid (runHub ops).sessions = some sess) :
    ∀ m ∈ sess.outbox, (∀ d, m ≠ .user_joined sid d) ∧ m ≠ .user_left sid := by
  intro m hm
  exact safeSessions_runHub ops (sid, sess) (mem_of_lookupS hs) m hm

/-- Witness for C6: in the S1 trace, the `user_joined` A received is about B,
not about A itself. -/
theorem no_self_notification_witness :
    (lookupS "A" (runHub [.attach "A", .recv "A" (.register "alice"), .attach "B",
        .recv "B" (.register "bob")]).sessions =
      some ⟨true, [.registered "A", .user_list [⟨"A", "alice"⟩],
        .user_joined "B" "bob"]⟩) ∧
    ServerMsg.user_joined "B" "bob" ∈
      [ServerMsg.registered "A", ServerMsg.user_list [⟨"A", "alice"⟩],
        ServerMsg.user_joined "B" "bob"] ∧
    ((∀ d, ServerMsg.user_joined "B" "bob" ≠ .user_joined "A" d) ∧
      ServerMsg.user_joined "B" "bob" ≠ .user_left "A") := by
  have hs : lookupS "A" (runHub [.attach "A", .recv "A" (.register "alice"), .attach "B",
      .recv "B" (.register "bob")]).sessions =
      some ⟨true, [.registered "A", .user_list [⟨"A", "alice"⟩],
        .user_joined "B" "bob"]⟩ := by decide
  refine ⟨hs, by decide, ?_⟩
  exact no_self_notification _ "A" _ hs _ (by decide)

/-! ### C7: registry bijection -/

/-- Modelled from the spec: the trace-level bookkeeping of "peers who have
successfully Registered and not yet been Detached". A `register` counts as
successful iff its session is attached at that moment; `detach` removes the
peer from both sets. -/
structure SpecView where
  attached : List String
  regd : List String
deriving DecidableEq, Repr

/-- Modelled from the spec: one trace event seen from the specification's
vocabulary of Attach / successful Register / Detach. -/
def specStep (s : SpecView) : Op → SpecView
  | .attach sid =>
    if sid ∈ s.attached then s else { s with attached := sid :: s.attached }
  | .recv sid (.register _) =>
    if sid ∈ s.attached then
      if sid ∈ s.regd then s else { s with regd := sid :: s.regd }
    else s
  | .recv _ _ => s
  | .detach sid =>
    { attached := s.attached.filter (fun x => x != sid),
      regd := s.regd.filter (fun x => x != sid) }

/-- Run the specification bookkeeping over a trace. -/
def runSpec (ops : List Op) : SpecView := ops.foldl specStep ⟨[], []⟩

/-- The coupling invariant between the hub and the spec bookkeeping:
sessions are the attached peers, and both the registry keys and the spec's
registered set are exactly the sessions whose `user_registered` flag is set. -/
def RegInv (h : Hub) (s : SpecView) : Prop :=
  (∀ id, (lookupS id h.sessions).isSome = true ↔ id ∈ s.attached) ∧
  (∀ id, id ∈ keysOf h.registry ↔
    (lookupS id h.sessions).map Session.regFlag = some true) ∧
  (∀ id, id ∈ s.regd ↔ (lookupS id h.sessions).map Session.regFlag = some true)

theorem isSome_lookupS_mapSessions (f : String → Session → Session)
    (ss : List (String × Session)) (id : String) :
    (lookupS id (mapSessions f ss)).isSome = (lookupS id ss).isSome := by
  rw [lookupS_mapSessions]
  cases lookupS id ss <;> simp

theorem flagMap_mapSessions (f : String → Session → Session)
    (hf : ∀ i s2, (f i s2).regFlag = s2.regFlag)
    (ss : List (String × Session)) (id : String) :
    (lookupS id (mapSessions f ss)).map Session.regFlag =
      (lookupS id ss).map Session.regFlag := by
  rw [lookupS_mapSessions]
  cases lookupS id ss <;> simp [hf]

/-- `ss2` differs from `ss` only in outbox contents. -/
def OutboxOnly (ss ss2 : List (String × Session)) : Prop :=
  ∀ id, (lookupS id ss2).isSome = (lookupS id ss).isSome ∧
    (lookupS id ss2).map Session.regFlag = (lookupS id ss).map Session.regFlag

theorem outboxOnly_trans {a b c : List (String × Session)}
    (h1 : OutboxOnly a b) (h2 : OutboxOnly b c) : OutboxOnly a c :=
  fun id => ⟨(h2 id).1.trans (h1 id).1, (h2 id).2.trans (h1 id).2⟩

theorem outboxOnly_sendTo (target : String) (m : ServerMsg)
    (ss : List (String × Session)) : OutboxOnly ss (sendTo target m ss) := by
  intro id
  constructor
  · rw [sendTo]
    exact isSome_lookupS_mapSessions _ ss id
  · rw [sendTo]
    apply flagMap_mapSessions
    intro i s2
    by_cases hi : i = target <;> simp [hi]

theorem outboxOnly_broadcastExcept (selfId : String) (m : ServerMsg)
    (ids : List String) (ss : List (String × Session)) :
    OutboxOnly ss (broadcastExcept selfId m ids ss) := by
  intro id
  constructor
  · rw [broadcastExcept]
    exact isSome_lookupS_mapSessions _ ss id
  · rw [broadcastExcept]
    apply flagMap_mapSessions
    intro i s2
    by_cases hi : i ≠ selfId ∧ i ∈ ids <;> simp [hi]

theorem regInv_outboxOnly {h : Hub} {s : SpecView} (inv : RegInv h s)
    {ss2 : List (String × Session)} (hoo : OutboxOnly h.sessions ss2) :
    RegInv { h with sessions := ss2 } s := by
  obtain ⟨invA, invB, invC⟩ := inv
  refine ⟨?_, ?_, ?_⟩
  · intro id
    rw [show ({ h with sessions := ss2 } : Hub).sessions = ss2 from rfl, (hoo id).1]
    exact invA id
  · intro id
    rw [show ({ h with sessions := ss2 } : Hub).sessions = ss2 from rfl, (hoo id).2]
    exact invB id
  · intro id
    rw [show ({ h with sessions := ss2 } : Hub).sessions = ss2 from rfl, (hoo id).2]
    exact invC id

theorem lookupS_append_single {α : Type} (k j : String) (v : α)
    (l : List (String × α)) :
    lookupS k (l ++ [(j, v)]) =
      match lookupS k l with
      | some w => some w
      | none => if j = k then some v else none := by
  rw [lookupS_append]
  cases lookupS k l <;> simp [lookupS]

theorem mem_filter_ne (id sid : String) (l : List String) :
    id ∈ l.filter (fun x => x != sid) ↔ (id ∈ l ∧ id ≠ sid) := by
  rw [List.mem_filter]
  simp

theorem regInv_step {h : Hub} {s : SpecView} (op : Op) (inv : RegInv h s) :
    RegInv (hubStep h op) (specStep s op) := by
  obtain ⟨invA, invB, invC⟩ := inv
  cases op with
  | attach sid =>
    by_cases hx : (lookupS sid h.sessions).isSome = true
    · have hmem : sid ∈ s.attached := (invA sid).mp hx
      simp only [hubStep, specStep, hx, if_true, if_pos hmem]
      exact ⟨invA, invB, invC⟩
    · have hnm : sid ∉ s.attached := fun hcon => hx ((invA sid).mpr hcon)
      have hnone : lookupS sid h.sessions = none := by
        cases hl : lookupS sid h.sessions
        · rfl
        · rw [hl] at hx
          simp at hx
      simp only [hubStep, specStep, hx, Bool.false_eq_true, if_false, if_neg hnm]
      refine ⟨?_, ?_, ?_⟩
      · intro id
        dsimp only
        rw [lookupS_append_single]
        by_cases hid : id = sid
        · subst hid
          rw [hnone]
          simp
        · cases hl : lookupS id h.sessions with
          | none =>
            have hmem2 : id ∉ s.attached := by
              intro hcon
              have hc2 := (invA id).mpr hcon
              rw [hl] at hc2
              simp at hc2
            have hsid : ¬(sid = id) := fun hcon => hid hcon.symm
            simp [hsid, List.mem_cons, hid, hmem2]
          | some val =>
            have hmem2 : id ∈ s.attached := (invA id).mp (by rw [hl]; rfl)
            simp [List.mem_cons, hmem2]
      · intro id
        dsimp only
        rw [lookupS_append_single]
        by_cases hid : id = sid
        · subst hid
          rw [hnone, invB id, hnone]
          simp
        · rw [invB id]
          cases hl : lookupS id h.sessions with
          | none =>
            have hsid : ¬(sid = id) := fun hcon => hid hcon.symm
            simp [hsid]
          | some val =>
            simp
      · intro id
        dsimp only
        rw [lookupS_append_single]
        by_cases hid : id = sid
        · subst hid
          rw [hnone, invC id, hnone]
          simp
        · rw [invC id]
          cases hl : lookupS id h.sessions with
          | none =>
            have hsid : ¬(sid = id) := fun hcon => hid hcon.symm
            simp [hsid]
          | some val =>
            simp
  | recv sid msg =>
    cases hls : lookupS sid h.sessions with
    | none =>
      rw [hubStep_recv_none msg hls]
      have hnm : sid ∉ s.attached := fun hcon => by
        have hc2 := (invA sid).mpr hcon
        rw [hls] at hc2
        simp at hc2
      cases msg with
      | register name =>
        simp only [specStep, if_neg hnm]
        exact ⟨invA, invB, invC⟩
      | discover => exact ⟨invA, invB, invC⟩
      | offer target payload => exact ⟨invA, invB, invC⟩
      | answer target payload => exact ⟨invA, invB, invC⟩
      | ice_candidate target payload => exact ⟨invA, invB, invC⟩
    | some sess =>
      rw [hubStep_recv_some msg hls]
      have hatt : sid ∈ s.attached := (invA sid).mp (by rw [hls]; rfl)
      cases msg with
      | register name =>
        have hattEq : (specStep s (.recv sid (.register name))).attached = s.attached := by
          simp only [specStep, if_pos hatt]
          by_cases hr : sid ∈ s.regd <;> simp [hr]
        have hregdMem : ∀ id, id ∈ (specStep s (.recv sid (.register name))).regd ↔
            (id = sid ∨ id ∈ s.regd) := by
          intro id
          simp only [specStep, if_pos hatt]
          by_cases hr : sid ∈ s.regd
          · simp only [if_pos hr]
            constructor
            · exact Or.inr
            · rintro (hcon | hcon)
              · rw [hcon]
                exact hr
              · exact hcon
          · simp [if_neg hr, List.mem_cons]
        have hoo2 : OutboxOnly h.sessions
            (broadcastExcept sid (.user_joined sid name)
              (keysOf (insertPair sid name h.registry))
              (sendTo sid (.user_list (snapshotOf (insertPair sid name h.registry)))
                (sendTo sid (.registered sid) h.sessions))) :=
          outboxOnly_trans
            (outboxOnly_trans (outboxOnly_sendTo _ _ _) (outboxOnly_sendTo _ _ _))
            (outboxOnly_broadcastExcept _ _ _ _)
        obtain ⟨w, hw⟩ : ∃ w, lookupS sid
            (broadcastExcept sid (.user_joined sid name)
              (keysOf (insertPair sid name h.registry))
              (sendTo sid (.user_list (snapshotOf (insertPair sid name h.registry)))
                (sendTo sid (.registered sid) h.sessions))) = some w := by
          have hsome := (hoo2 sid).1
          rw [hls] at hsome
          simp at hsome
          exact Option.isSome_iff_exists.mp hsome
        refine ⟨?_, ?_, ?_⟩
        · intro id
          rw [hattEq]
          simp only [processMsg]
          rw [setFlag, isSome_lookupS_mapSessions, (hoo2 id).1]
          exact invA id
        · intro id
          simp only [processMsg]
          by_cases hid : id = sid
          · subst hid
            constructor
            · intro _
              rw [lookupS_setFlag_self, hw]
              rfl
            · intro _
              rw [mem_keysOf_iff, lookupS_insertPair]
              simp
          · constructor
            · intro hmemk
              rw [mem_keysOf_iff, lookupS_insertPair, if_neg hid, ← mem_keysOf_iff] at hmemk
              rw [lookupS_setFlag_ne _ _ hid, (hoo2 id).2]
              exact (invB id).mp hmemk
            · intro hflag
              rw [lookupS_setFlag_ne _ _ hid, (hoo2 id).2] at hflag
              rw [mem_keysOf_iff, lookupS_insertPair, if_neg hid, ← mem_keysOf_iff]
              exact (invB id).mpr hflag
        · intro id
          rw [hregdMem id]
          simp only [processMsg]
          by_cases hid : id = sid
          · subst hid
            constructor
            · intro _
              rw [lookupS_setFlag_self, hw]
              rfl
            · intro _
              exact Or.inl rfl
          · constructor
            · intro hmem2
              rcases hmem2 with hcon | hmem2
              · exact absurd hcon hid
              · rw [lookupS_setFlag_ne _ _ hid, (hoo2 id).2]
                exact (invC id).mp hmem2
            · intro hflag
              rw [lookupS_setFlag_ne _ _ hid, (hoo2 id).2] at hflag
              exact Or.inr ((invC id).mpr hflag)
      | discover =>
        simp only [processMsg]
        split
        · exact regInv_outboxOnly ⟨invA, invB, invC⟩ (outboxOnly_sendTo _ _ _)
        · exact regInv_outboxOnly ⟨invA, invB, invC⟩ (outboxOnly_sendTo _ _ _)
      | offer target payload =>
        simp only [processMsg]
        split
        · split
          · exact regInv_outboxOnly ⟨invA, invB, invC⟩ (outboxOnly_sendTo _ _ _)
          · exact regInv_outboxOnly ⟨invA, invB, invC⟩ (outboxOnly_sendTo _ _ _)
        · exact regInv_outboxOnly ⟨invA, invB, invC⟩ (outboxOnly_sendTo _ _ _)
      | answer target payload =>
        simp only [processMsg]
        split
        · split
          · exact regInv_outboxOnly ⟨invA, invB, invC⟩ (outboxOnly_sendTo _ _ _)
          · exact regInv_outboxOnly ⟨invA, invB, invC⟩ (outboxOnly_sendTo _ _ _)
        · exact regInv_outboxOnly ⟨invA, invB, invC⟩ (outboxOnly_sendTo _ _ _)
      | ice_candidate target payload =>
        simp only [processMsg]
        split
        · split
          · exact regInv_outboxOnly ⟨invA, invB, invC⟩ (outboxOnly_sendTo _ _ _)
          · exact regInv_outboxOnly ⟨invA, invB, invC⟩ (outboxOnly_sendTo _ _ _)
        · exact regInv_outboxOnly ⟨invA, invB, invC⟩ (outboxOnly_sendTo _ _ _)
  | detach sid =>
    by_cases hx : (lookupS sid h.sessions).isSome = true
    · simp only [hubStep, specStep, hx, if_true]
      have hoo : OutboxOnly h.sessions
          (broadcastExcept sid (.user_left sid) (keysOf (eraseKey sid h.registry))
            h.sessions) := outboxOnly_broadcastExcept _ _ _ _
      refine ⟨?_, ?_, ?_⟩
      · intro id
        dsimp only
        rw [mem_filter_ne, lookupS_eraseKey]
        by_cases hid : id = sid
        · subst hid
          simp
        · rw [if_neg hid, (hoo id).1, invA id]
          simp [hid]
      · intro id
        dsimp only
        rw [mem_keysOf_iff, lookupS_eraseKey, lookupS_eraseKey]
        by_cases hid : id = sid
        · subst hid
          simp
        · rw [if_neg hid, if_neg hid, (hoo id).2, ← mem_keysOf_iff]
          exact invB id
      · intro id
        dsimp only
        rw [mem_filter_ne, lookupS_eraseKey]
        by_cases hid : id = sid
        · subst hid
          simp
        · rw [if_neg hid, (hoo id).2, invC id]
          simp [hid]
    · simp only [hubStep, specStep, hx, Bool.false_eq_true, if_false]
      have hnone : lookupS sid h.sessions = none := by
        cases hl : lookupS sid h.sessions
        · rfl
        · rw [hl] at hx
          simp at hx
      refine ⟨?_, ?_, ?_⟩
      · intro id
        dsimp only
        rw [mem_filter_ne]
        by_cases hid : id = sid
        · subst hid
          rw [hnone]
          simp
        · rw [invA id]
          simp [hid]
      · exact invB
      · intro id
        dsimp only
        rw [mem_filter_ne]
        by_cases hid : id = sid
        · subst hid
          rw [invC id, hnone]
          simp
        · rw [invC id]
          simp [hid]

theorem regInv_runHub (ops : List Op) : RegInv (runHub ops) (runSpec ops) := by
  have key : ∀ (l : List Op) (h : Hub) (s : SpecView), RegInv h s →
      RegInv (l.foldl hubStep h) (l.foldl specStep s) := by
    intro l
    induction l with
    | nil => intro h s inv; exact inv
    | cons op rest ih =>
      intro h s inv
      exact ih _ _ (regInv_step op inv)
  apply key
  refine ⟨?_, ?_, ?_⟩ <;> intro id <;> simp [initHub, lookupS, keysOf]

/-- C7: after any sequence of hub events, the set of identities in the
registry equals the set of peers that have successfully registered and have
not yet been detached. -/
theorem registry_bijection (ops : List Op) (id : String) :
    id ∈ keysOf (runHub ops).registry ↔ id ∈ (runSpec ops).regd := by
  have inv := regInv_runHub ops
  exact (inv.2.1 id).trans (inv.2.2 id).symm

end P2PChat
